import Mathlib

/-!
Verification development for the screen-time tracking application.

The Rust sources are shallowly embedded:
* SQLite tables are association lists keyed by their primary key
  (`AMap`), and every upsert statement of the persistence engine is an
  `upsertWith` over such a map;
* the tracker's `HashMap` state is likewise an association list, with
  the `entry` occupied/vacant semantics translated literally;
* `Uuid::new_v4()` is modelled by an opaque fresh-string supply driven
  by a counter stored next to the tracker state;
* timestamps (`chrono::NaiveDateTime`) are integer seconds, and SQL
  `DATE(t)` is the floor-division day of `t`;
* `f32`/`f64` quantities (system utilisation percentages, query output
  columns) are rationals;
* fallible SQLite statement execution is driven by an explicit failure
  oracle, and a transaction that errors is rolled back (the semantics
  of dropping a `rusqlite::Transaction`), leaving the caller-visible
  store unchanged.
-/

namespace STT

/-- Association-list map keyed by strings; models both a SQLite table
keyed by its primary key and a Rust `HashMap<String, V>`. -/
abbrev AMap (V : Type) : Type := List (String × V)

/-- Lookup by key; models `HashMap::get` / a keyed `SELECT`. -/
def alookup {V : Type} : AMap V → String → Option V
  | [], _ => none
  | hd :: rest, key => if hd.1 = key then some hd.2 else alookup rest key

/-- Set a key to a value: update in place when the key is present,
append otherwise.  Models an in-place row update / a fresh insert. -/
def aset {V : Type} : AMap V → String → V → AMap V
  | [], key, v => [(key, v)]
  | hd :: rest, key, v =>
    if hd.1 = key then (key, v) :: rest else hd :: aset rest key v

/-- Generic `INSERT ... ON CONFLICT(key) DO ...` over a table: when the
key is absent insert the incoming value, when present combine the old
row with the incoming one through `f old new`. -/
def upsertWith {V : Type} (f : V → V → V) (t : AMap V) (key : String) (v : V) :
    AMap V :=
  match alookup t key with
  | some v0 => aset t key (f v0 v)
  | none => aset t key v

/-- Keys of a table, in storage order. -/
def akeys {V : Type} (t : AMap V) : List String := t.map Prod.fst

/-- Apply a list of keyed upserts in order. -/
def applyUpserts {V : Type} (f : V → V → V) (t : AMap V)
    (L : List (String × V)) : AMap V :=
  L.foldl (fun acc kv => upsertWith f acc kv.1 kv.2) t

/-- One step of the per-key effect of an upsert on an optional stored
value. -/
def chainStep {V : Type} (f : V → V → V) (o : Option V) (v : V) : V :=
  match o with
  | some x => f x v
  | none => v

/-- Per-key effect of a list of incoming values on an optional stored
value. -/
def chainK {V : Type} (f : V → V → V) : Option V → List V → Option V
  | o, [] => o
  | o, v :: vs => chainK f (some (chainStep f o v)) vs

/-- The incoming values of a statement list that target a given key. -/
def valuesAt {V : Type} (L : List (String × V)) (k : String) : List V :=
  (L.filter (fun kv => decide (kv.1 = k))).map Prod.snd

theorem alookup_aset_self {V : Type} (t : AMap V) (k : String) (v : V) :
    alookup (aset t k v) k = some v := by
  induction t with
  | nil => simp [aset, alookup]
  | cons hd tl ih =>
    by_cases h : hd.1 = k
    · simp [aset, h, alookup]
    · simp [aset, h, alookup, ih]

theorem alookup_aset_ne {V : Type} (t : AMap V) (k k2 : String) (v : V)
    (h : k2 ≠ k) : alookup (aset t k v) k2 = alookup t k2 := by
  have hne : ¬k = k2 := fun hk => h hk.symm
  induction t with
  | nil => simp [aset, alookup, hne]
  | cons hd tl ih =>
    by_cases hh : hd.1 = k
    · subst hh
      simp [aset, alookup, hne]
    · by_cases h2 : hd.1 = k2
      · simp [aset, hh, alookup, h2, h]
      · simp [aset, hh, alookup, h2, ih]

theorem alookup_upsertWith_self {V : Type} (f : V → V → V) (t : AMap V)
    (k : String) (v : V) :
    alookup (upsertWith f t k v) k = some (chainStep f (alookup t k) v) := by
  unfold upsertWith
  cases h : alookup t k with
  | none => simp [h, alookup_aset_self, chainStep]
  | some v0 => simp [h, alookup_aset_self, chainStep]

theorem alookup_upsertWith_ne {V : Type} (f : V → V → V) (t : AMap V)
    (k k2 : String) (v : V) (h : k2 ≠ k) :
    alookup (upsertWith f t k v) k2 = alookup t k2 := by
  unfold upsertWith
  cases alookup t k with
  | none => exact alookup_aset_ne t k k2 v h
  | some v0 => exact alookup_aset_ne t k k2 _ h

theorem alookup_applyUpserts {V : Type} (f : V → V → V)
    (L : List (String × V)) (t : AMap V) (k : String) :
    alookup (applyUpserts f t L) k = chainK f (alookup t k) (valuesAt L k) := by
  induction L generalizing t with
  | nil => simp [applyUpserts, valuesAt, chainK]
  | cons kv rest ih =>
    have step : applyUpserts f t (kv :: rest)
        = applyUpserts f (upsertWith f t kv.1 kv.2) rest := by
      simp [applyUpserts]
    rw [step, ih]
    by_cases h : kv.1 = k
    · subst h
      simp [valuesAt, chainK, alookup_upsertWith_self]
    · have hne : k ≠ kv.1 := fun hk => h hk.symm
      simp [valuesAt, h, alookup_upsertWith_ne f t kv.1 k kv.2 hne]

theorem chainK_some {V : Type} (f : V → V → V) (x : V) (M : List V) :
    chainK f (some x) M = some (M.foldl f x) := by
  induction M generalizing x with
  | nil => simp [chainK]
  | cons v vs ih => simp [chainK, chainStep, ih]

theorem foldl_absorb {V : Type} (f : V → V → V)
    (H : ∀ x w v, f (f x w) v = f x v) (M : List V) (x v : V) :
    f (M.foldl f x) v = f x v := by
  induction M generalizing x with
  | nil => simp
  | cons w ws ih => simp [List.foldl_cons, ih, H]

theorem chainK_replay {V : Type} (f : V → V → V)
    (H : ∀ x w v, f (f x w) v = f x v) (H2 : ∀ v, f v v = v)
    (o : Option V) (M : List V) :
    chainK f (chainK f o M) M = chainK f o M := by
  cases M with
  | nil => simp [chainK]
  | cons v vs =>
    have hx : f (chainStep f o v) v = chainStep f o v := by
      cases o with
      | none => simp [chainStep, H2]
      | some y => simp [chainStep, H]
    have h1 : chainK f o (v :: vs) = some (vs.foldl f (chainStep f o v)) := by
      simp [chainK, chainK_some]
    rw [h1]
    have h2 : chainK f (some (vs.foldl f (chainStep f o v))) (v :: vs)
        = some (vs.foldl f (f (vs.foldl f (chainStep f o v)) v)) := by
      simp [chainK, chainStep, chainK_some]
    rw [h2, foldl_absorb f H vs (chainStep f o v) v, hx]

/-- Replaying the same upsert list over a table leaves every key with
the same stored value as applying it once. -/
theorem applyUpserts_replay {V : Type} (f : V → V → V)
    (H : ∀ x w v, f (f x w) v = f x v) (H2 : ∀ v, f v v = v)
    (t : AMap V) (L : List (String × V)) (k : String) :
    alookup (applyUpserts f (applyUpserts f t L) L) k
      = alookup (applyUpserts f t L) k := by
  rw [alookup_applyUpserts, alookup_applyUpserts]
  exact chainK_replay f H H2 _ _

/-- The `App` model (`db/models.rs`): unique name plus executable
path. -/
structure App where
  name : String
  path : String
deriving DecidableEq

/-- A row of the `daily_limits` table (key: `app_name`). -/
structure LimitRow where
  time_limit : Nat
  should_alert : Bool
  should_close : Bool
  alert_before_close : Bool
  alert_duration : Nat
deriving DecidableEq

/-- A row of `app_usage_time_period` (key: `id`); the aggregation query
guards for a NULL `end_time`, so the column is optional here. -/
structure AppUsageRow where
  app_name : String
  start_time : Int
  end_time : Option Int
deriving DecidableEq

/-- A row of `window_activity_usage` (key: `id`). -/
structure WindowUsageRow where
  session_id : String
  app_time_id : String
  application_name : String
  current_screen_title : String
  start_time : Int
  last_updated_time : Int
deriving DecidableEq

/-- A row of `app_idle_time_period` (key: `id`). -/
structure IdleRow where
  app_id : String
  window_id : String
  session_id : String
  app_name : String
  start_time : Int
  end_time : Int
deriving DecidableEq

/-- The SQLite store owned by `DbHandler`, restricted to the tables the
tracking pipeline writes and queries. -/
structure DB where
  apps : AMap String
  daily_limits : AMap LimitRow
  app_usage_time_period : AMap AppUsageRow
  window_activity_usage : AMap WindowUsageRow
  app_classifications : AMap (Option String)
  app_idle_time_period : AMap IdleRow
deriving DecidableEq

/-- The SQL statements issued by `process_updates`
(`db/connection.rs`), with their bound parameters. -/
inductive Stmt
  | appUpsert (name path : String)
  | limitDefaultInsert (name : String)
  | appUsageUpsert (id : String) (row : AppUsageRow)
  | windowUsageUpsert (id : String) (row : WindowUsageRow)
  | classificationInsert (name : String)
  | idleUpsert (id : String) (row : IdleRow)
deriving DecidableEq

/-- Conflict action `DO UPDATE SET <all columns> = excluded.<...>`:
the incoming row wins. -/
def replaceRow {V : Type} (_old new : V) : V := new

/-- Conflict action `DO NOTHING`: the stored row wins. -/
def keepRow {V : Type} (old _new : V) : V := old

/-- Conflict action of `app_usage_time_period`:
`DO UPDATE SET end_time = excluded.end_time`. -/
def keepStartSetEnd (old new : AppUsageRow) : AppUsageRow :=
  { old with end_time := new.end_time }

/-- Conflict action of `window_activity_usage`:
`DO UPDATE SET last_updated_time = excluded.last_updated_time`. -/
def keepStartSetLastUpdated (old new : WindowUsageRow) : WindowUsageRow :=
  { old with last_updated_time := new.last_updated_time }

/-- Conflict action of `app_idle_time_period`:
`DO UPDATE SET end_time = excluded.end_time`. -/
def keepStartSetIdleEnd (old new : IdleRow) : IdleRow :=
  { old with end_time := new.end_time }

/-- Effect of one successfully executed statement on the store. -/
def applyStmt (db : DB) : Stmt → DB
  | .appUpsert n p =>
    { db with apps := upsertWith replaceRow db.apps n p }
  | .limitDefaultInsert n =>
    { db with daily_limits :=
        upsertWith keepRow db.daily_limits n ⟨60, false, false, false, 360⟩ }
  | .appUsageUpsert i r =>
    { db with app_usage_time_period :=
        upsertWith keepStartSetEnd db.app_usage_time_period i r }
  | .windowUsageUpsert i r =>
    { db with window_activity_usage :=
        upsertWith keepStartSetLastUpdated db.window_activity_usage i r }
  | .classificationInsert n =>
    { db with app_classifications :=
        upsertWith keepRow db.app_classifications n none }
  | .idleUpsert i r =>
    { db with app_idle_time_period :=
        upsertWith keepStartSetIdleEnd db.app_idle_time_period i r }

/-- The in-memory `WindowUsage` model emitted by the tracker
(`db/models.rs`); `app_id` is the row id of the window-usage interval,
`app_time_id` the back-reference to the app-usage interval. -/
structure WindowUsage where
  session_id : String
  app_time_id : String
  app_id : String
  application_name : String
  current_screen_title : String
  start_time : Int
  last_updated_time : Int
deriving DecidableEq

/-- The in-memory `IdlePeriod` model emitted by the tracker
(`db/models.rs`). -/
structure IdlePeriod where
  id : String
  app_id : String
  window_id : String
  session_id : String
  app_name : String
  start_time : Int
  end_time : Int
deriving DecidableEq

/-- The in-memory `AppUsage` model emitted by the tracker
(`db/models.rs`). -/
structure AppUsage where
  id : String
  app_name : String
  start_time : Int
  end_time : Int
deriving DecidableEq

/-- One batch received over the channel by `upsert_app_usage`: the five
derived collections, with `HashMap`/`HashSet` value collections
modelled as lists in iteration order. -/
structure Batch where
  apps : List App
  window_usages : List WindowUsage
  classifications : List String
  idle_periods : List IdlePeriod
  app_usages : List AppUsage

/-- The first loop of `process_updates`: per app, `APP_UPSERT_QUERY`
followed by `UPSET_TIME_LIMIT`. -/
def appStmts : List App → List Stmt
  | [] => []
  | a :: rest => .appUpsert a.name a.path :: .limitDefaultInsert a.name :: appStmts rest

/-- The statements of one batch, in the fixed order `process_updates`
issues them: app upserts (with default limit) → app-time upserts →
window-usage upserts → classification placeholders → idle periods. -/
def stmtsOfBatch (b : Batch) : List Stmt :=
  appStmts b.apps
    ++ b.app_usages.map (fun u =>
        .appUsageUpsert u.id ⟨u.app_name, u.start_time, some u.end_time⟩)
    ++ b.window_usages.map (fun w =>
        .windowUsageUpsert w.app_id
          ⟨w.session_id, w.app_time_id, w.application_name,
            w.current_screen_title, w.start_time, w.last_updated_time⟩)
    ++ b.classifications.map (fun n => .classificationInsert n)
    ++ b.idle_periods.map (fun i =>
        .idleUpsert i.id
          ⟨i.app_id, i.window_id, i.session_id, i.app_name,
            i.start_time, i.end_time⟩)

/-- Apply a statement list without failures. -/
def applyStmts (db : DB) (L : List Stmt) : DB := L.foldl applyStmt db

/-- Pure effect of a committed batch. -/
def applyBatch (db : DB) (b : Batch) : DB := applyStmts db (stmtsOfBatch b)

/-- Key-value pairs a statement list sends to the `apps` table. -/
def appKVs : List Stmt → List (String × String)
  | [] => []
  | .appUpsert n p :: rest => (n, p) :: appKVs rest
  | _ :: rest => appKVs rest

/-- Key-value pairs a statement list sends to `daily_limits`. -/
def limitKVs : List Stmt → List (String × LimitRow)
  | [] => []
  | .limitDefaultInsert n :: rest => (n, ⟨60, false, false, false, 360⟩) :: limitKVs rest
  | _ :: rest => limitKVs rest

/-- Key-value pairs a statement list sends to `app_usage_time_period`. -/
def usageKVs : List Stmt → List (String × AppUsageRow)
  | [] => []
  | .appUsageUpsert i r :: rest => (i, r) :: usageKVs rest
  | _ :: rest => usageKVs rest

/-- Key-value pairs a statement list sends to `window_activity_usage`. -/
def windowKVs : List Stmt → List (String × WindowUsageRow)
  | [] => []
  | .windowUsageUpsert i r :: rest => (i, r) :: windowKVs rest
  | _ :: rest => windowKVs rest

/-- Key-value pairs a statement list sends to `app_classifications`. -/
def classKVs : List Stmt → List (String × Option String)
  | [] => []
  | .classificationInsert n :: rest => (n, none) :: classKVs rest
  | _ :: rest => classKVs rest

/-- Key-value pairs a statement list sends to `app_idle_time_period`. -/
def idleKVs : List Stmt → List (String × IdleRow)
  | [] => []
  | .idleUpsert i r :: rest => (i, r) :: idleKVs rest
  | _ :: rest => idleKVs rest

theorem applyStmts_factor (L : List Stmt) (db : DB) :
    applyStmts db L =
      { apps := applyUpserts replaceRow db.apps (appKVs L)
        daily_limits := applyUpserts keepRow db.daily_limits (limitKVs L)
        app_usage_time_period :=
          applyUpserts keepStartSetEnd db.app_usage_time_period (usageKVs L)
        window_activity_usage :=
          applyUpserts keepStartSetLastUpdated db.window_activity_usage (windowKVs L)
        app_classifications :=
          applyUpserts keepRow db.app_classifications (classKVs L)
        app_idle_time_period :=
          applyUpserts keepStartSetIdleEnd db.app_idle_time_period (idleKVs L) } := by
  induction L generalizing db with
  | nil => rfl
  | cons s rest ih =>
    rw [show applyStmts db (s :: rest) = applyStmts (applyStmt db s) rest from rfl, ih]
    cases s <;>
      simp [applyStmt, appKVs, limitKVs, usageKVs, windowKVs, classKVs, idleKVs,
        applyUpserts]

/-- C3: `apply_batch` is idempotent under replay: for every batch,
submitting the same batch twice in succession leaves every affected row
of every table with the same final values as submitting it once,
because every statement is insert-on-conflict-update or
insert-on-conflict-do-nothing. -/
theorem apply_batch_replay_idempotent (db : DB) (b : Batch) (k : String) :
    alookup (applyBatch (applyBatch db b) b).apps k
        = alookup (applyBatch db b).apps k
    ∧ alookup (applyBatch (applyBatch db b) b).daily_limits k
        = alookup (applyBatch db b).daily_limits k
    ∧ alookup (applyBatch (applyBatch db b) b).app_usage_time_period k
        = alookup (applyBatch db b).app_usage_time_period k
    ∧ alookup (applyBatch (applyBatch db b) b).window_activity_usage k
        = alookup (applyBatch db b).window_activity_usage k
    ∧ alookup (applyBatch (applyBatch db b) b).app_classifications k
        = alookup (applyBatch db b).app_classifications k
    ∧ alookup (applyBatch (applyBatch db b) b).app_idle_time_period k
        = alookup (applyBatch db b).app_idle_time_period k := by
  refine ⟨?_, ?_, ?_, ?_, ?_, ?_⟩ <;> simp only [applyBatch, applyStmts_factor]
  · exact applyUpserts_replay replaceRow (fun _ _ _ => rfl) (fun _ => rfl) _ _ k
  · exact applyUpserts_replay keepRow (fun _ _ _ => rfl) (fun _ => rfl) _ _ k
  · exact applyUpserts_replay keepStartSetEnd (fun _ _ _ => rfl) (fun _ => rfl) _ _ k
  · exact applyUpserts_replay keepStartSetLastUpdated (fun _ _ _ => rfl) (fun _ => rfl) _ _ k
  · exact applyUpserts_replay keepRow (fun _ _ _ => rfl) (fun _ => rfl) _ _ k
  · exact applyUpserts_replay keepStartSetIdleEnd (fun _ _ _ => rfl) (fun _ => rfl) _ _ k

/-- Fallible execution of the transaction body, statement by statement;
the oracle `failAt` names the index of the statement on which SQLite
reports an error, if any. -/
def execStmts (failAt : Option Nat) : DB → Nat → List Stmt → Except Unit DB
  | db, _, [] => .ok db
  | db, i, s :: rest =>
    if failAt = some i then .error ()
    else execStmts failAt (applyStmt db s) (i + 1) rest

/-- `process_updates` (`db/connection.rs`): runs all statements of the
batch inside one transaction and commits at the end; an error on any
statement returns early, dropping the transaction guard, which rolls
back every statement of the batch.  The pair is (Rust return value,
caller-visible store after the call). -/
def process_updates (failAt : Option Nat) (db : DB) (b : Batch) :
    Except Unit DB × DB :=
  match execStmts failAt db 0 (stmtsOfBatch b) with
  | .ok db2 => (.ok db2, db2)
  | .error e => (.error e, db)

/-- The consumer loop of `upsert_app_usage`: applies batches in channel
order; a failed batch is logged and dropped, and the loop continues
with the next batch.  `failures i` is the statement-failure oracle for
the i-th batch. -/
def upsert_loop (failures : Nat → Option Nat) : DB → Nat → List Batch → DB
  | db, _, [] => db
  | db, i, b :: bs =>
    upsert_loop failures (process_updates (failures i) db b).2 (i + 1) bs

theorem execStmts_ok_of_nofail (failAt : Option Nat) (L : List Stmt)
    (db : DB) (i : Nat)
    (h : ∀ k, failAt = some k → k < i ∨ i + L.length ≤ k) :
    execStmts failAt db i L = .ok (L.foldl applyStmt db) := by
  induction L generalizing db i with
  | nil => rfl
  | cons s rest ih =>
    have hlen : (s :: rest).length = rest.length + 1 := List.length_cons s rest
    have hne : ¬failAt = some i := by
      intro hf
      rcases h i hf with h1 | h1 <;> omega
    have hrec : ∀ k, failAt = some k → k < i + 1 ∨ (i + 1) + rest.length ≤ k := by
      intro k hf
      rcases h k hf with h1 | h1 <;> omega
    simp [execStmts, hne, ih _ _ hrec]

theorem execStmts_err_of_fail (failAt : Option Nat) (L : List Stmt)
    (db : DB) (i k : Nat) (hf : failAt = some k) (hik : i ≤ k)
    (hk : k < i + L.length) :
    execStmts failAt db i L = .error () := by
  induction L generalizing db i with
  | nil =>
    exfalso
    simp only [List.length_nil, Nat.add_zero] at hk
    omega
  | cons s rest ih =>
    by_cases hki : k = i
    · subst hki
      simp [execStmts, hf]
    · have h1 : i + 1 ≤ k := by omega
      have h2 : k < (i + 1) + rest.length := by
        have hlen : (s :: rest).length = rest.length + 1 := List.length_cons s rest
        omega
      have hne : ¬failAt = some i := by
        intro hx
        rw [hf] at hx
        exact hki (Option.some.inj hx)
      simp [execStmts, hne, ih _ _ h1 h2]

theorem execStmts_ok_inv (failAt : Option Nat) (L : List Stmt)
    (db : DB) (i : Nat) (d : DB) (h : execStmts failAt db i L = .ok d) :
    d = L.foldl applyStmt db := by
  induction L generalizing db i with
  | nil => simp [execStmts] at h; simp [h]
  | cons s rest ih =>
    by_cases hi : failAt = some i
    · simp [execStmts, hi] at h
    · simp [execStmts, hi] at h
      exact ih _ _ h

/-- C2: `process_updates` is atomic and its failures are surfaced but
non-fatal.  (1) the caller-visible store after a batch is either the
store with the whole batch applied, or the unchanged original store —
never a partial application; (2) whenever the oracle makes any
statement of the batch fail, the whole batch is rolled back and the
error is returned to the caller; (3) `upsert_app_usage` continues with
the next batch after every outcome, never retrying a failed batch. -/
theorem process_updates_atomic (failAt : Option Nat) (db : DB) (b : Batch) :
    (process_updates failAt db b = (.ok (applyBatch db b), applyBatch db b)
      ∨ process_updates failAt db b = (.error (), db))
    ∧ (∀ k, failAt = some k → k < (stmtsOfBatch b).length →
        process_updates failAt db b = (.error (), db))
    ∧ (∀ (failures : Nat → Option Nat) (i : Nat) (bs : List Batch),
        upsert_loop failures db i (b :: bs)
          = upsert_loop failures (process_updates (failures i) db b).2 (i + 1) bs) := by
  refine ⟨?_, ?_, ?_⟩
  · cases h : execStmts failAt db 0 (stmtsOfBatch b) with
    | ok d =>
      left
      have hd := execStmts_ok_inv failAt (stmtsOfBatch b) db 0 d h
      simp [process_updates, h, hd, applyBatch, applyStmts]
    | error e =>
      right
      simp [process_updates, h]
  · intro k hf hk
    have h := execStmts_err_of_fail failAt (stmtsOfBatch b) db 0 k hf (by omega)
      (by omega)
    simp [process_updates, h]
  · intro failures i bs
    rfl

/-- Witness for C2 at a concrete input: a batch with one app whose
first statement fails is rolled back entirely and reported as an
error. -/
theorem process_updates_atomic_witness :
    process_updates (some 0) ⟨[], [], [], [], [], []⟩ ⟨[⟨"a", "p"⟩], [], [], [], []⟩
      = (.error (), ⟨[], [], [], [], [], []⟩) :=
  (process_updates_atomic (some 0) ⟨[], [], [], [], [], []⟩
      ⟨[⟨"a", "p"⟩], [], [], [], []⟩).2.1 0 rfl (by decide)

/-- Key-presence test on a table; models `contains_key` /
`Option::is_some`. -/
def containsKey {V : Type} (m : AMap V) (k : String) : Bool :=
  (alookup m k).isSome

/-- Fresh UUID strings (`Uuid::new_v4().to_string()`), modelled as an
opaque counter-driven supply. -/
def mkUuid (n : Nat) : String := "uuid-" ++ toString n

/-- `platform::WindowDetails`: title plus optional owning-app name and
path. -/
structure WindowDetails where
  window_title : String
  app_name : Option String
  app_path : Option String
  is_active : Bool
deriving DecidableEq

/-- One snapshot from the platform layer (`WindowDetailsTuple`): the
window-title keyed ordered map and the app-name keyed ordered map. -/
structure Snapshot where
  byWindow : AMap WindowDetails
  byApp : AMap WindowDetails
deriving DecidableEq

/-- `tracker.rs` idle threshold. -/
def IDLE_THRESHOLD_SECS : Nat := 30

/-- The `AppTracker` state (`tracker.rs`), with `HashMap`s as
association lists and the UUID supply made explicit. -/
structure AppTracker where
  session_id : String
  previous_app_map : AMap App
  previous_window_usage_map : AMap WindowUsage
  previous_classification_map : List String
  previous_idle_map : AMap IdlePeriod
  previous_app_usage_map : AMap AppUsage
  uuid_supply : Nat
deriving DecidableEq

/-- `AppTracker::new`. -/
def AppTracker.new (session_id : String) : AppTracker :=
  ⟨session_id, [], [], [], [], [], 0⟩

/-- `AppTracker::update_app`: insert-or-replace the app record. -/
def AppTracker.update_app (st : AppTracker) (app_name app_path : String) :
    AppTracker :=
  { st with
    previous_app_map := aset st.previous_app_map app_name ⟨app_name, app_path⟩ }

/-- `AppTracker::update_usage`, translated branch for branch: the
app-usage entry is extended (occupied) or opened with a fresh id
(vacant); then the window-usage entry likewise; then, above the idle
threshold, the idle entry is extended or opened carrying the resolved
`app_time_id` as its `app_id` and the resolved window-usage id as its
`window_id`. -/
def AppTracker.update_usage (st : AppTracker) (window_title app_name : String)
    (current_time start_time : Int) (idle_time_secs : Nat) : AppTracker :=
  let window_id0 := mkUuid st.uuid_supply
  let app_time_id0 := mkUuid (st.uuid_supply + 1)
  let supply1 := st.uuid_supply + 2
  let appRes :=
    match alookup st.previous_app_usage_map app_name with
    | some entry =>
      (aset st.previous_app_usage_map app_name
        { entry with end_time := current_time }, entry.id)
    | none =>
      (aset st.previous_app_usage_map app_name
        ⟨app_time_id0, app_name, start_time, current_time⟩, app_time_id0)
  let app_time_id := appRes.2
  let winRes :=
    match alookup st.previous_window_usage_map window_title with
    | some entry =>
      (aset st.previous_window_usage_map window_title
        { entry with last_updated_time := current_time }, entry.app_id)
    | none =>
      (aset st.previous_window_usage_map window_title
        ⟨st.session_id, app_time_id, window_id0, app_name, window_title,
          current_time, current_time⟩, window_id0)
  let window_id := winRes.2
  let idleRes :=
    if IDLE_THRESHOLD_SECS < idle_time_secs then
      match alookup st.previous_idle_map window_title with
      | some entry =>
        (aset st.previous_idle_map window_title
          { entry with end_time := current_time }, supply1)
      | none =>
        (aset st.previous_idle_map window_title
          ⟨mkUuid supply1, app_time_id, window_id, st.session_id, app_name,
            current_time, current_time⟩, supply1 + 1)
    else (st.previous_idle_map, supply1)
  { st with
    previous_app_usage_map := appRes.1
    previous_window_usage_map := winRes.1
    previous_idle_map := idleRes.1
    uuid_supply := idleRes.2 }

/-- `AppTracker::update_classification`: set insertion. -/
def AppTracker.update_classification (st : AppTracker) (app_name : String) :
    AppTracker :=
  { st with
    previous_classification_map :=
      if app_name ∈ st.previous_classification_map then
        st.previous_classification_map
      else app_name :: st.previous_classification_map }

/-- `AppTracker::cleanup_old_entries`: retain only keys still present
in the current snapshot. -/
def AppTracker.cleanup_old_entries (st : AppTracker) (snap : Snapshot) :
    AppTracker :=
  { st with
    previous_app_usage_map :=
      st.previous_app_usage_map.filter (fun kv => containsKey snap.byApp kv.1)
    previous_window_usage_map :=
      st.previous_window_usage_map.filter (fun kv => containsKey snap.byWindow kv.1)
    previous_idle_map :=
      st.previous_idle_map.filter (fun kv => containsKey snap.byWindow kv.1) }

/-- The per-window body of `AppTracker::update`. -/
def AppTracker.processWindow (st : AppTracker) (details : WindowDetails)
    (current_time start_time : Int) (idle_time_secs : Nat) : AppTracker :=
  let app_name := details.app_name.getD "Unknown App"
  let app_path := details.app_path.getD "Unknown Path"
  ((st.update_app app_name app_path).update_usage details.window_title app_name
      current_time start_time idle_time_secs).update_classification app_name

/-- `AppTracker::update`: process every visible window, then prune. -/
def AppTracker.update (st : AppTracker) (snap : Snapshot)
    (current_time start_time : Int) (idle_time_secs : Nat) : AppTracker :=
  (snap.byWindow.foldl
      (fun acc kv => acc.processWindow kv.2 current_time start_time idle_time_secs)
      st).cleanup_old_entries snap

/-- One tracking tick: a snapshot plus the clock and idle readings the
tracker samples during that tick. -/
structure Tick where
  snap : Snapshot
  current_time : Int
  start_time : Int
  idle_time_secs : Nat

/-- A sequence of ticks applied to the tracker. -/
def AppTracker.run (st : AppTracker) : List Tick → AppTracker
  | [] => st
  | t :: ts => (st.update t.snap t.current_time t.start_time t.idle_time_secs).run ts

theorem alookup_eq_none_iff_not_mem {V : Type} (t : AMap V) (k : String) :
    alookup t k = none ↔ k ∉ akeys t := by
  induction t with
  | nil => simp [alookup, akeys]
  | cons hd tl ih =>
    by_cases h : hd.1 = k
    · simp [alookup, akeys, h]
    · have h2 : ¬k = hd.1 := fun hk => h hk.symm
      simp [alookup, akeys, h, h2, ih]

theorem akeys_aset {V : Type} (t : AMap V) (k : String) (v : V) :
    akeys (aset t k v) = if containsKey t k then akeys t else akeys t ++ [k] := by
  induction t with
  | nil => simp [aset, akeys, containsKey, alookup]
  | cons hd tl ih =>
    by_cases h : hd.1 = k
    · simp [aset, akeys, containsKey, alookup, h]
    · cases hl : alookup tl k with
      | none =>
        simp [aset, akeys, containsKey, alookup, h, hl] at ih ⊢
        exact ih
      | some w =>
        simp [aset, akeys, containsKey, alookup, h, hl] at ih ⊢
        exact ih

theorem nodup_akeys_aset {V : Type} (t : AMap V) (k : String) (v : V)
    (h : (akeys t).Nodup) : (akeys (aset t k v)).Nodup := by
  rw [akeys_aset]
  by_cases hc : containsKey t k
  · simpa [hc] using h
  · have hnone : alookup t k = none := by
      cases hl : alookup t k with
      | none => rfl
      | some _ => exact absurd (by simp [containsKey, hl]) hc
    have hk : k ∉ akeys t := (alookup_eq_none_iff_not_mem t k).mp hnone
    simp [hc, List.nodup_append, h, hk]

theorem nodup_akeys_filter {V : Type} (t : AMap V) (p : String × V → Bool)
    (h : (akeys t).Nodup) : (akeys (t.filter p)).Nodup := by
  have hs : (t.filter p).Sublist t := List.filter_sublist t
  simp only [akeys] at h ⊢
  exact List.Nodup.sublist (hs.map Prod.fst) h

/-- Distinct-key invariant on the app-usage map: at most one interval
per app name. -/
def appUsageKeysNodup (st : AppTracker) : Prop :=
  (akeys st.previous_app_usage_map).Nodup

theorem update_usage_preserves_nodup (st : AppTracker)
    (window_title app_name : String) (current_time start_time : Int)
    (idle : Nat) (h : appUsageKeysNodup st) :
    appUsageKeysNodup
      (st.update_usage window_title app_name current_time start_time idle) := by
  unfold appUsageKeysNodup AppTracker.update_usage
  cases halo : alookup st.previous_app_usage_map app_name <;>
    simpa [halo] using nodup_akeys_aset _ app_name _ h

theorem processWindow_preserves_nodup (st : AppTracker) (details : WindowDetails)
    (current_time start_time : Int) (idle : Nat) (h : appUsageKeysNodup st) :
    appUsageKeysNodup (st.processWindow details current_time start_time idle) := by
  unfold AppTracker.processWindow
  have h1 : appUsageKeysNodup
      (st.update_app (details.app_name.getD "Unknown App")
        (details.app_path.getD "Unknown Path")) := h
  have h2 := update_usage_preserves_nodup _ details.window_title
    (details.app_name.getD "Unknown App") current_time start_time idle h1
  exact h2

theorem update_preserves_nodup (st : AppTracker) (snap : Snapshot)
    (current_time start_time : Int) (idle : Nat) (h : appUsageKeysNodup st) :
    appUsageKeysNodup (st.update snap current_time start_time idle) := by
  unfold AppTracker.update
  have hfold : ∀ (L : AMap WindowDetails) (st0 : AppTracker),
      appUsageKeysNodup st0 →
      appUsageKeysNodup (L.foldl
        (fun acc kv => acc.processWindow kv.2 current_time start_time idle) st0) := by
    intro L
    induction L with
    | nil => intro st0 h0; exact h0
    | cons hd tl ih =>
      intro st0 h0
      exact ih _ (processWindow_preserves_nodup st0 hd.2 current_time start_time idle h0)
  exact nodup_akeys_filter _ _ (hfold snap.byWindow st h)

theorem run_preserves_nodup (ts : List Tick) (st : AppTracker)
    (h : appUsageKeysNodup st) : appUsageKeysNodup (st.run ts) := by
  induction ts generalizing st with
  | nil => exact h
  | cons t rest ih =>
    exact ih _ (update_preserves_nodup st t.snap t.current_time t.start_time
      t.idle_time_secs h)

/-- C1: starting from a fresh `AppTracker`, every sequence of snapshot
updates leaves at most one open `AppUsageInterval` per app name (the
app-usage map keys stay pairwise distinct), and `update_usage` extends
`end_time` reusing the existing id when the app name is already
present, minting a fresh id only when no entry exists. -/
theorem one_open_interval_per_app (sid : String) (ts : List Tick)
    (st : AppTracker) (window_title app_name : String)
    (current_time start_time : Int) (idle : Nat) :
    appUsageKeysNodup ((AppTracker.new sid).run ts)
    ∧ (∀ entry, alookup st.previous_app_usage_map app_name = some entry →
        alookup (st.update_usage window_title app_name current_time start_time
            idle).previous_app_usage_map app_name
          = some { entry with end_time := current_time })
    ∧ (alookup st.previous_app_usage_map app_name = none →
        alookup (st.update_usage window_title app_name current_time start_time
            idle).previous_app_usage_map app_name
          = some ⟨mkUuid (st.uuid_supply + 1), app_name, start_time, current_time⟩) := by
  refine ⟨run_preserves_nodup ts _ (by simp [AppTracker.new, appUsageKeysNodup, akeys]),
    ?_, ?_⟩
  · intro entry h
    simp [AppTracker.update_usage, h, alookup_aset_self]
  · intro h
    simp [AppTracker.update_usage, h, alookup_aset_self]

/-- Witness for C1 at a concrete input: the first tick for app
"editor.exe" mints the fresh id and stores the tick interval. -/
theorem one_open_interval_per_app_witness :
    alookup ((AppTracker.new "sess").update_usage "Editor" "editor.exe" 5 5
        0).previous_app_usage_map "editor.exe"
      = some ⟨mkUuid 1, "editor.exe", 5, 5⟩ :=
  (one_open_interval_per_app "sess" [] (AppTracker.new "sess") "Editor"
      "editor.exe" 5 5 0).2.2 rfl

/-- C9 counterexample: on the first idle tick from a fresh tracker the
created `IdlePeriod` carries the app-usage interval id (uuid-1) in
`app_id`, not the window-usage interval id (uuid-0) the claim names. -/
theorem idle_period_app_id_counterexample :
    (alookup ((AppTracker.new "sess").update_usage "Editor" "editor.exe" 9 9
        45).previous_idle_map "Editor").map IdlePeriod.app_id
      = some (mkUuid 1)
    ∧ (alookup ((AppTracker.new "sess").update_usage "Editor" "editor.exe" 9 9
        45).previous_window_usage_map "Editor").map WindowUsage.app_id
      = some (mkUuid 0)
    ∧ mkUuid 1 ≠ mkUuid 0 := by
  refine ⟨by decide, by decide, by decide⟩

/-- C9 (amended): every `IdlePeriod` the tracker opens stores in
`app_id` the id of the current app-usage interval and in `window_id`
the id of the current window-usage interval. -/
theorem idle_period_back_references (st : AppTracker)
    (window_title app_name : String) (current_time start_time : Int)
    (idle : Nat) (hidle : IDLE_THRESHOLD_SECS < idle)
    (hvac : alookup st.previous_idle_map window_title = none) :
    ∃ ip, alookup (st.update_usage window_title app_name current_time start_time
        idle).previous_idle_map window_title = some ip
      ∧ some ip.app_id
          = (alookup (st.update_usage window_title app_name current_time
              start_time idle).previous_app_usage_map app_name).map AppUsage.id
      ∧ some ip.window_id
          = (alookup (st.update_usage window_title app_name current_time
              start_time idle).previous_window_usage_map window_title).map
                WindowUsage.app_id := by
  cases h1 : alookup st.previous_app_usage_map app_name with
  | none =>
    cases h2 : alookup st.previous_window_usage_map window_title with
    | none =>
      refine ⟨⟨mkUuid (st.uuid_supply + 2), mkUuid (st.uuid_supply + 1),
        mkUuid st.uuid_supply, st.session_id, app_name, current_time,
        current_time⟩, ?_, ?_, ?_⟩ <;>
        simp [AppTracker.update_usage, h1, h2, hvac, hidle, alookup_aset_self]
    | some entryW =>
      refine ⟨⟨mkUuid (st.uuid_supply + 2), mkUuid (st.uuid_supply + 1),
        entryW.app_id, st.session_id, app_name, current_time,
        current_time⟩, ?_, ?_, ?_⟩ <;>
        simp [AppTracker.update_usage, h1, h2, hvac, hidle, alookup_aset_self]
  | some entryA =>
    cases h2 : alookup st.previous_window_usage_map window_title with
    | none =>
      refine ⟨⟨mkUuid (st.uuid_supply + 2), entryA.id, mkUuid st.uuid_supply,
        st.session_id, app_name, current_time, current_time⟩, ?_, ?_, ?_⟩ <;>
        simp [AppTracker.update_usage, h1, h2, hvac, hidle, alookup_aset_self]
    | some entryW =>
      refine ⟨⟨mkUuid (st.uuid_supply + 2), entryA.id, entryW.app_id,
        st.session_id, app_name, current_time, current_time⟩, ?_, ?_, ?_⟩ <;>
        simp [AppTracker.update_usage, h1, h2, hvac, hidle, alookup_aset_self]

/-- Witness for the amended C9 theorem at a concrete input. -/
theorem idle_period_back_references_witness :
    ∃ ip, alookup ((AppTracker.new "sess").update_usage "Editor" "editor.exe" 9 9
        45).previous_idle_map "Editor" = some ip
      ∧ some ip.app_id
          = (alookup ((AppTracker.new "sess").update_usage "Editor" "editor.exe"
              9 9 45).previous_app_usage_map "editor.exe").map AppUsage.id
      ∧ some ip.window_id
          = (alookup ((AppTracker.new "sess").update_usage "Editor" "editor.exe"
              9 9 45).previous_window_usage_map "Editor").map WindowUsage.app_id :=
  idle_period_back_references (AppTracker.new "sess") "Editor" "editor.exe" 9 9 45
    (by decide) rfl

/-- The tauri error type (`error.rs`) restricted to the variant
`set_daily_limit` raises; the message of the source carries an
apostrophe, elided here. -/
inductive TuariError
  | optionError (msg : String)
deriving DecidableEq

/-- `DbHandler::insert_update_app_limits`: full-row upsert into
`daily_limits`. -/
def DbHandler.insert_update_app_limits (db : DB) (app_name : String)
    (time_limit : Nat) (should_alert should_close alert_before_close : Bool)
    (alert_duration : Nat) : DB :=
  { db with
    daily_limits :=
      upsertWith replaceRow db.daily_limits app_name
        ⟨time_limit, should_alert, should_close, alert_before_close,
          alert_duration⟩ }

/-- `set_daily_limit` (tauri command, `lib.rs`): dispatch on the two
flags; the pair is (Rust return value, store after the call). -/
def set_daily_limit (db : DB) (app_name : String) (total_minutes : Nat)
    (should_alert should_close alert_before_close : Bool)
    (alert_duration : Nat) : Except TuariError String × DB :=
  match should_alert, should_close with
  | true, true =>
    (.error (.optionError "cant set alert and close at the same time"), db)
  | true, false =>
    (.ok ("Daily limit set for " ++ app_name ++ " " ++ toString total_minutes
        ++ " minutes"),
      DbHandler.insert_update_app_limits db app_name total_minutes should_alert
        false false alert_duration)
  | false, true =>
    (.ok ("Daily limit set for " ++ app_name ++ " " ++ toString total_minutes
        ++ " minutes"),
      DbHandler.insert_update_app_limits db app_name total_minutes false
        should_close alert_before_close alert_duration)
  | false, false =>
    (.ok ("Removed Daily for " ++ app_name),
      DbHandler.insert_update_app_limits db app_name total_minutes should_alert
        false alert_before_close alert_duration)

/-- C5: invoking `set_daily_limit` with both `should_alert` and
`should_close` true is rejected synchronously with the
conflicting-configuration error and the store is unchanged: no
`daily_limits` row is inserted or updated. -/
theorem set_daily_limit_conflicting_flags_rejected (db : DB) (app_name : String)
    (total_minutes : Nat) (alert_before_close : Bool) (alert_duration : Nat) :
    set_daily_limit db app_name total_minutes true true alert_before_close
        alert_duration
      = (.error (.optionError "cant set alert and close at the same time"), db) :=
  rfl

/-- SQLite `DATE(t)`: the day of a timestamp in seconds. -/
def dateOf (t : Int) : Int := t.fdiv 86400

/-- Seconds of one `app_usage_time_period` row: `CASE WHEN end_time IS
NULL THEN now - start ELSE end - start END`. -/
def rowSeconds (now : Int) (r : AppUsageRow) : Int :=
  match r.end_time with
  | none => now - r.start_time
  | some e => e - r.start_time

/-- `DATE(start_time) BETWEEN :previous_date AND :current_date`. -/
def inRange (prev cur t : Int) : Bool :=
  decide (prev ≤ dateOf t) && decide (dateOf t ≤ cur)

/-- The `app_total` CTE value for one app. -/
def total_seconds (db : DB) (now prev cur : Int) (app : String) : Int :=
  ((db.app_usage_time_period.filter
      (fun kv => inRange prev cur kv.2.start_time && decide (kv.2.app_name = app))).map
    (fun kv => rowSeconds now kv.2)).sum

/-- The `app_idle` CTE value for one app; with no matching idle rows
the LEFT JOIN yields NULL which `COALESCE` turns into 0, the sum over
the empty list. -/
def idle_seconds (db : DB) (prev cur : Int) (app : String) : Int :=
  ((db.app_idle_time_period.filter
      (fun kv => inRange prev cur kv.2.start_time && decide (kv.2.app_name = app))).map
    (fun kv => kv.2.end_time - kv.2.start_time)).sum

/-- The `GROUP BY app_name` key set of the in-range usage rows. -/
def appsInRange (db : DB) (prev cur : Int) : List String :=
  ((db.app_usage_time_period.filter
      (fun kv => inRange prev cur kv.2.start_time)).map
    (fun kv => kv.2.app_name)).dedup

/-- SQLite `ROUND(x, 2)`. -/
def round2 (q : ℚ) : ℚ := (round (q * 100) : ℤ) / 100

/-- One result row of `APP_USAGE_QUERY` as mapped into `AppUsageQuery`
(`db/models.rs`); the daily-limit columns come from the LEFT JOIN and
are NULL when the app has no configured limit. -/
structure AppUsageQuery where
  app_name : String
  total_hours : ℚ
  idle_hours : ℚ
  active_percentage : Option ℚ
  time_limit : Option Nat
  should_alert : Option Bool
  should_close : Option Bool
  alert_before_close : Option Bool
  alert_duration : Option Nat
deriving DecidableEq

/-- The computed columns of `APP_USAGE_QUERY` for one app. -/
def queryRow (db : DB) (now prev cur : Int) (app : String) : AppUsageQuery :=
  let total := total_seconds db now prev cur app
  let idle := idle_seconds db prev cur app
  let dl := alookup db.daily_limits app
  { app_name := app
    total_hours := round2 ((total : ℚ) / 3600)
    idle_hours := round2 ((idle : ℚ) / 3600)
    active_percentage :=
      if 0 < total then
        some (round2 (((total - idle : Int) : ℚ) * 100 / (total : ℚ)))
      else none
    time_limit := dl.map LimitRow.time_limit
    should_alert := dl.map LimitRow.should_alert
    should_close := dl.map LimitRow.should_close
    alert_before_close := dl.map LimitRow.alert_before_close
    alert_duration := dl.map LimitRow.alert_duration }

/-- `ORDER BY TotalHours DESC`: insert into a descending-sorted list. -/
def insertByHours (x : AppUsageQuery) : List AppUsageQuery → List AppUsageQuery
  | [] => [x]
  | y :: ys =>
    if y.total_hours < x.total_hours then x :: y :: ys
    else y :: insertByHours x ys

/-- `ORDER BY TotalHours DESC` over the whole result set. -/
def sortByHours : List AppUsageQuery → List AppUsageQuery
  | [] => []
  | x :: xs => insertByHours x (sortByHours xs)

/-- `DbHandler::get_app_usage_details`: the rows of `APP_USAGE_QUERY`
for a date range, ordered descending by total hours. -/
def get_app_usage_details (db : DB) (now prev cur : Int) : List AppUsageQuery :=
  sortByHours ((appsInRange db prev cur).map (queryRow db now prev cur))

/-- Result-order relation: earlier rows have at least the total hours
of later rows. -/
def hoursDesc (a b : AppUsageQuery) : Prop := b.total_hours ≤ a.total_hours

theorem mem_insertByHours (x : AppUsageQuery) (l : List AppUsageQuery)
    (a : AppUsageQuery) : a ∈ insertByHours x l ↔ a = x ∨ a ∈ l := by
  induction l with
  | nil => simp [insertByHours]
  | cons y ys ih =>
    by_cases h : y.total_hours < x.total_hours
    · simp [insertByHours, h]
    · simp [insertByHours, h, ih]
      tauto

theorem pairwise_insertByHours (x : AppUsageQuery) (l : List AppUsageQuery)
    (h : l.Pairwise hoursDesc) : (insertByHours x l).Pairwise hoursDesc := by
  induction l with
  | nil => simp [insertByHours, hoursDesc]
  | cons y ys ih =>
    rcases List.pairwise_cons.mp h with ⟨hy, hys⟩
    have hunf : insertByHours x (y :: ys)
        = if y.total_hours < x.total_hours then x :: y :: ys
          else y :: insertByHours x ys := rfl
    by_cases hlt : y.total_hours < x.total_hours
    · rw [hunf, if_pos hlt]
      refine List.pairwise_cons.mpr ⟨?_, h⟩
      intro z hz
      rcases List.mem_cons.mp hz with rfl | hz2
      · exact le_of_lt hlt
      · exact le_trans (hy z hz2) (le_of_lt hlt)
    · rw [hunf, if_neg hlt]
      refine List.pairwise_cons.mpr ⟨?_, ih hys⟩
      intro z hz
      rcases (mem_insertByHours x ys z).mp hz with rfl | hz2
      · exact le_of_not_lt hlt
      · exact hy z hz2

theorem pairwise_sortByHours (l : List AppUsageQuery) :
    (sortByHours l).Pairwise hoursDesc := by
  induction l with
  | nil => simp [sortByHours]
  | cons x xs ih => exact pairwise_insertByHours x _ ih

theorem mem_sortByHours (l : List AppUsageQuery) (a : AppUsageQuery) :
    a ∈ sortByHours l ↔ a ∈ l := by
  induction l with
  | nil => simp [sortByHours]
  | cons x xs ih => simp [sortByHours, mem_insertByHours, ih]

/-- C6: every result row of the usage aggregation is the computed row
of its app: active-percentage is NULL (never a division error) when an
app's total tracked seconds is 0 and equals
round((total − idle) / total × 100, 2) when the total is positive; the
daily-limit column comes from the LEFT JOIN with `daily_limits`; and
the result rows are ordered descending by total hours. -/
theorem usage_query_rows_spec (db : DB) (now prev cur : Int) :
    (∀ r ∈ get_app_usage_details db now prev cur,
        r = queryRow db now prev cur r.app_name)
    ∧ (∀ app, total_seconds db now prev cur app = 0 →
        (queryRow db now prev cur app).active_percentage = none)
    ∧ (∀ app, 0 < total_seconds db now prev cur app →
        (queryRow db now prev cur app).active_percentage
          = some (round2 (((total_seconds db now prev cur app
              - idle_seconds db prev cur app : Int) : ℚ) * 100
              / ((total_seconds db now prev cur app : Int) : ℚ))))
    ∧ (∀ app, (queryRow db now prev cur app).time_limit
        = (alookup db.daily_limits app).map LimitRow.time_limit)
    ∧ (get_app_usage_details db now prev cur).Pairwise hoursDesc := by
  refine ⟨?_, ?_, ?_, ?_, pairwise_sortByHours _⟩
  · intro r hr
    rw [get_app_usage_details, mem_sortByHours] at hr
    rcases List.mem_map.mp hr with ⟨app, _, rfl⟩
    rfl
  · intro app h
    simp [queryRow, h]
  · intro app h
    simp [queryRow, h]
  · intro app
    rfl

/-- Witness for C6 at a concrete store: one app with a single closed
100-second interval and no idle rows gets a defined active
percentage. -/
theorem usage_query_rows_spec_witness :
    (queryRow ⟨[], [], [("id1", ⟨"app", 0, some 100⟩)], [], [], []⟩ 1000 0 0
        "app").active_percentage
      = some (round2 (((total_seconds
            ⟨[], [], [("id1", ⟨"app", 0, some 100⟩)], [], [], []⟩ 1000 0 0 "app"
          - idle_seconds ⟨[], [], [("id1", ⟨"app", 0, some 100⟩)], [], [], []⟩
              0 0 "app" : Int) : ℚ) * 100
          / ((total_seconds ⟨[], [], [("id1", ⟨"app", 0, some 100⟩)], [], [], []⟩
              1000 0 0 "app" : Int) : ℚ))) :=
  (usage_query_rows_spec ⟨[], [], [("id1", ⟨"app", 0, some 100⟩)], [], [], []⟩
      1000 0 0).2.2.1 "app" (by decide)

/-- Outcome of one execution of the classification UPDATE statement,
as the backing store reports it. -/
inductive ExecOutcome
  | success
  | databaseLocked
  | otherFailure
deriving DecidableEq

/-- Final result of `update_classification` as surfaced to its
caller. -/
inductive UpdFinal
  | ok
  | lockedError
  | otherError
deriving DecidableEq

/-- `DbHandler::update_classification` retry bound. -/
def MAX_RETRIES : Nat := 5

/-- `DbHandler::update_classification` base delay in milliseconds. -/
def RETRY_DELAY_MS : Nat := 100

/-- The retry loop of `DbHandler::update_classification`: `outcome k`
is the store's answer to the k-th execution of the UPDATE; on
`databaseLocked` with fewer than `MAX_RETRIES` retries so far the
guard is dropped, the task sleeps `RETRY_DELAY_MS *` (incremented
attempt count) and retries; any other error returns immediately.  The
result carries the sleep delays performed, in order. -/
def update_classification_go (outcome : Nat → ExecOutcome) (attempts : Nat) :
    UpdFinal × List Nat :=
  match outcome attempts with
  | .success => (.ok, [])
  | .otherFailure => (.otherError, [])
  | .databaseLocked =>
    if _h : attempts < MAX_RETRIES then
      let next := update_classification_go outcome (attempts + 1)
      (next.1, RETRY_DELAY_MS * (attempts + 1) :: next.2)
    else (.lockedError, [])
termination_by MAX_RETRIES - attempts
decreasing_by omega

/-- `DbHandler::update_classification`, starting with zero attempts. -/
def update_classification (outcome : Nat → ExecOutcome) : UpdFinal × List Nat :=
  update_classification_go outcome 0

theorem go_busy_prefix (outcome : Nat → ExecOutcome) (j : Nat)
    (hj : j ≤ MAX_RETRIES)
    (hbusy : ∀ k, k < j → outcome k = .databaseLocked) :
    ∀ (n a : Nat), a ≤ j → j - a = n →
      update_classification_go outcome a
        = ((update_classification_go outcome j).1,
            ((List.range' (a + 1) (j - a)).map (fun m => RETRY_DELAY_MS * m))
              ++ (update_classification_go outcome j).2) := by
  intro n
  induction n with
  | zero =>
    intro a ha hn
    have haj : a = j := by omega
    subst haj
    simp
  | succ n ih =>
    intro a ha hn
    have haj : a < j := by omega
    have hbb := hbusy a haj
    have halt : a < MAX_RETRIES := by omega
    have hstep : update_classification_go outcome a
        = ((update_classification_go outcome (a + 1)).1,
            RETRY_DELAY_MS * (a + 1)
              :: (update_classification_go outcome (a + 1)).2) := by
      rw [update_classification_go]
      simp [hbb, halt]
    rw [hstep, ih (a + 1) (by omega) (by omega)]
    have hra : j - a = (j - (a + 1)) + 1 := by omega
    rw [hra, List.range'_succ, List.map_cons]
    rfl

/-- C7: the retry policy of `update_classification`.  If the store
answers database-locked j times (j ≤ 5) and then succeeds, the call
returns Ok having slept the base delay times 1, 2, …, j between
attempts; the same delays precede an immediately surfaced non-lock
error; and five lock answers after the first execution (six lock
answers in total) surface the lock error to the caller. -/
theorem update_classification_retry_policy (outcome : Nat → ExecOutcome)
    (j : Nat) (hj : j ≤ MAX_RETRIES)
    (hbusy : ∀ k, k < j → outcome k = .databaseLocked) :
    (outcome j = .success →
      update_classification outcome
        = (.ok, (List.range' 1 j).map (fun m => RETRY_DELAY_MS * m)))
    ∧ (outcome j = .otherFailure →
      update_classification outcome
        = (.otherError, (List.range' 1 j).map (fun m => RETRY_DELAY_MS * m)))
    ∧ ((∀ k, k ≤ MAX_RETRIES → outcome k = .databaseLocked) →
      update_classification outcome
        = (.lockedError,
            (List.range' 1 MAX_RETRIES).map (fun m => RETRY_DELAY_MS * m))) := by
  have hpref := go_busy_prefix outcome j hj hbusy j 0 (by omega) (by omega)
  refine ⟨?_, ?_, ?_⟩
  · intro hs
    have hend : update_classification_go outcome j = (.ok, []) := by
      rw [update_classification_go]
      simp [hs]
    rw [update_classification, hpref, hend]
    simp
  · intro hs
    have hend : update_classification_go outcome j = (.otherError, []) := by
      rw [update_classification_go]
      simp [hs]
    rw [update_classification, hpref, hend]
    simp
  · intro hall
    have hbusy5 : ∀ k, k < MAX_RETRIES → outcome k = .databaseLocked :=
      fun k hk => hall k (by omega)
    have hpref5 := go_busy_prefix outcome MAX_RETRIES (by omega) hbusy5
      MAX_RETRIES 0 (by omega) (by omega)
    have hend : update_classification_go outcome MAX_RETRIES
        = (.lockedError, []) := by
      rw [update_classification_go]
      simp [hall MAX_RETRIES (by omega)]
    rw [update_classification, hpref5, hend]
    simp

/-- Witness for C7 at a concrete outcome schedule: two lock answers
followed by success give Ok after sleeping 100 and 200 ms. -/
theorem update_classification_retry_policy_witness :
    update_classification
        (fun k => if k < 2 then ExecOutcome.databaseLocked else ExecOutcome.success)
      = (.ok, (List.range' 1 2).map (fun m => RETRY_DELAY_MS * m)) :=
  (update_classification_retry_policy
      (fun k => if k < 2 then ExecOutcome.databaseLocked else ExecOutcome.success)
      2 (by decide)
      (fun k hk => by
        have hk2 : k < 2 := hk
        simp [hk2])).1 rfl

/-- `SystemUsage` (`system_usage/mod.rs`), with `f32` percentages as
rationals. -/
structure SystemUsage where
  gpu_usage : ℚ
  gpu_mem_usage : ℚ
  cpu_usage : ℚ
  ram_usage : ℚ
deriving DecidableEq

/-- `AppConfig` (config watcher): the thresholds the admission
controller reads. -/
structure AppConfig where
  cpu_threshold : ℚ
  gpu_threshold : ℚ
  ram_usage : ℚ
  gpu_ram : ℚ
  idle_threshold_period : Nat
deriving DecidableEq

/-- `Machine::get_system_usage`: cpu and ram are sampled directly;
when GPU sampling fails the pair defaults to zero usage
(`gpu_usage().unwrap_or((0.0, 0.0))`). -/
def get_system_usage (cpu ram : ℚ) (gpuSample : Option (ℚ × ℚ)) : SystemUsage :=
  let gp := gpuSample.getD (0, 0)
  ⟨gp.1, gp.2, cpu, ram⟩

/-- `Machine::check_system_usage`: the five-conjunct admission
check. -/
def check_system_usage (is_idle : Bool) (cfg : AppConfig)
    (metrics : SystemUsage) : Bool :=
  decide (metrics.cpu_usage ≤ cfg.cpu_threshold)
    && decide (metrics.ram_usage < cfg.ram_usage)
    && is_idle
    && decide (metrics.gpu_usage < cfg.gpu_threshold)
    && decide (metrics.gpu_mem_usage < 150)

/-- The boolean published on the control channel by the sampling loop
of `start_server`: false outright unless idle, otherwise the result of
`check_system_usage`. -/
def published_gate (idle_time : Nat) (cfg : AppConfig) (cpu ram : ℚ)
    (gpuSample : Option (ℚ × ℚ)) : Bool :=
  let is_idle := decide (cfg.idle_threshold_period < idle_time)
  if is_idle then
    check_system_usage is_idle cfg (get_system_usage cpu ram gpuSample)
  else false

/-- The gate formula exactly as the specification states it (written
from the spec sentence, for comparison with `published_gate`):
idle AND cpu ≤ cpu_threshold AND ram < ram_threshold AND
gpu < gpu_threshold. -/
def spec_gate (idle_time : Nat) (cfg : AppConfig) (cpu ram : ℚ)
    (gpuSample : Option (ℚ × ℚ)) : Bool :=
  let m := get_system_usage cpu ram gpuSample
  decide (cfg.idle_threshold_period < idle_time)
    && decide (m.cpu_usage ≤ cfg.cpu_threshold)
    && decide (m.ram_usage < cfg.ram_usage)
    && decide (m.gpu_usage < cfg.gpu_threshold)

/-- C8 counterexample: with the default thresholds, an idle sample
passing every conjunct of the claimed formula but carrying a
GPU-memory utilisation of 200 makes the published gate false while the
claimed four-conjunct formula is true: the code conjoins a fifth
condition, gpu-memory% < 150, that the claim omits. -/
theorem admission_gate_counterexample :
    spec_gate 100 ⟨25, 15, 75, 150, 60⟩ 0 0 (some (0, 200)) = true
    ∧ published_gate 100 ⟨25, 15, 75, 150, 60⟩ 0 0 (some (0, 200)) = false := by
  refine ⟨by decide, by decide⟩

/-- C8 (amended): the published gate equals idle AND cpu ≤
cpu_threshold AND ram < ram_threshold AND gpu < gpu_threshold AND
gpu-memory < 150, where a failed GPU sample contributes zero usage for
both GPU metrics, so GPU unavailability never changes the gate
relative to a zero-usage GPU sample. -/
theorem admission_gate_formula (idle_time : Nat) (cfg : AppConfig)
    (cpu ram : ℚ) (gpuSample : Option (ℚ × ℚ)) :
    (published_gate idle_time cfg cpu ram gpuSample
      = (decide (cfg.idle_threshold_period < idle_time)
          && decide (cpu ≤ cfg.cpu_threshold)
          && decide (ram < cfg.ram_usage)
          && decide ((gpuSample.getD (0, 0)).1 < cfg.gpu_threshold)
          && decide ((gpuSample.getD (0, 0)).2 < 150)))
    ∧ get_system_usage cpu ram none = ⟨0, 0, cpu, ram⟩
    ∧ published_gate idle_time cfg cpu ram none
        = published_gate idle_time cfg cpu ram (some (0, 0)) := by
  refine ⟨?_, rfl, rfl⟩
  by_cases h : cfg.idle_threshold_period < idle_time <;>
    simp [published_gate, check_system_usage, get_system_usage, h]

/-- `ClassificationSerde` (`db/models.rs`): the classification wire
object. -/
structure ClassificationSerde where
  name : String
  path : String
  classification : Option String
deriving DecidableEq

/-- `str::replace` for a two-character pattern replaced by one
character, scanning left to right over non-overlapping occurrences. -/
def replacePair (c1 c2 r : Char) : List Char → List Char
  | [] => []
  | [c] => [c]
  | a :: b :: rest =>
    if a = c1 ∧ b = c2 then r :: replacePair c1 c2 r rest
    else a :: replacePair c1 c2 r (b :: rest)

/-- `str::trim_matches('"')`: strip leading and trailing quotes. -/
def trimQuotes (s : List Char) : List Char :=
  ((s.dropWhile (fun c => c = '"')).reverse.dropWhile (fun c => c = '"')).reverse

/-- The subscriber's message cleaning:
`replace("\\\\", "\\").replace("\\\"", "\"")` then trim quotes. -/
def cleanWire (s : String) : String :=
  String.mk (trimQuotes (replacePair '\\' '"' '"'
    (replacePair '\\' '\\' '\\' s.data)))

/-- Observable outcome of one iteration of the subscriber loop. -/
inductive SubStep
  | panicked
  | wroteClassification (c : ClassificationSerde)
  | loggedReceiveErrorAndSlept
deriving DecidableEq

/-- One iteration of `Subscriber::recv_message` (`zero_mq_service.rs`):
`recvResult` is the zmq receive result (error = socket failure;
ok-error = non-UTF-8 payload, unwrapped; ok-ok = text message), and
`decode` models `serde_json::from_str::<ClassificationSerde>`, whose
result is also unwrapped. -/
def recv_message_step (recvResult : Except Unit (Except (List Nat) String))
    (decode : String → Option ClassificationSerde) : SubStep :=
  match recvResult with
  | .error _ => .loggedReceiveErrorAndSlept
  | .ok (.error _) => .panicked
  | .ok (.ok msg) =>
    match decode (cleanWire msg) with
    | none => .panicked
    | some d => .wroteClassification d

/-- C4 counterexample: a received text message whose decode fails (a
malformed wire object) makes the subscriber panic via `unwrap`, which
is not the logged-and-dropped continuation the claim states. -/
theorem malformed_message_counterexample :
    recv_message_step (.ok (.ok "boom")) (fun _ => none) = .panicked
    ∧ (fun _ => (none : Option ClassificationSerde)) (cleanWire "boom") = none
    ∧ SubStep.panicked ≠ SubStep.loggedReceiveErrorAndSlept := by
  refine ⟨rfl, rfl, by decide⟩

/-- C4 (amended): socket-level receive errors are logged and the loop
continues, and a well-formed message is written back; but an
undecodable message — malformed JSON or a non-UTF-8 payload — panics
the subscriber task instead of being logged and dropped. -/
theorem subscriber_error_handling
    (recvResult : Except Unit (Except (List Nat) String))
    (decode : String → Option ClassificationSerde) :
    (∀ e, recvResult = .error e →
      recv_message_step recvResult decode = .loggedReceiveErrorAndSlept)
    ∧ (∀ msg, recvResult = .ok (.ok msg) → decode (cleanWire msg) = none →
      recv_message_step recvResult decode = .panicked)
    ∧ (∀ msg d, recvResult = .ok (.ok msg) → decode (cleanWire msg) = some d →
      recv_message_step recvResult decode = .wroteClassification d)
    ∧ (∀ bytes, recvResult = .ok (.error bytes) →
      recv_message_step recvResult decode = .panicked) := by
  refine ⟨?_, ?_, ?_, ?_⟩
  · intro e he
    subst he
    rfl
  · intro msg hm hd
    subst hm
    simp [recv_message_step, hd]
  · intro msg d hm hd
    subst hm
    simp [recv_message_step, hd]
  · intro bytes hb
    subst hb
    rfl

/-- Witness for the amended C4 theorem: a socket receive error is
logged and the loop continues. -/
theorem subscriber_error_handling_witness :
    recv_message_step (.error ()) (fun _ => none)
      = SubStep.loggedReceiveErrorAndSlept :=
  (subscriber_error_handling (.error ()) (fun _ => none)).1 () rfl

/-- Observable outcome of one iteration of the publisher loop. -/
inductive PubStep
  | panicked
  | sentItem (c : ClassificationSerde) (remaining : List ClassificationSerde)
  | sleptNoSignal
deriving DecidableEq

/-- `Publisher::update_task_queue`: refill the queue from
`fetch_all_classification` only when it is empty. -/
def update_task_queue (queue fetched : List ClassificationSerde) :
    List ClassificationSerde :=
  if queue.isEmpty then queue ++ fetched else queue

/-- One gate-signalled iteration of `Publisher::call_classifier_agent`:
on a true gate signal `remove_task_from_queue().unwrap()` dequeues the
head unconditionally — panicking when the queue is empty — sends it,
and refills the queue when it became empty; any other signal sleeps. -/
def call_classifier_agent_step (gateSignal : Option Bool)
    (queue fetched : List ClassificationSerde) : PubStep :=
  match gateSignal with
  | some true =>
    match queue with
    | [] => .panicked
    | c :: rest => .sentItem c (update_task_queue rest fetched)
  | _ => .sleptNoSignal

/-- C10: when the admission gate reads true, the dequeued item is
unwrapped unconditionally: after a refill that found no unclassified
rows the queue is still empty and the publisher panics instead of
waiting; the dequeue is safe exactly under the precondition that the
queue is non-empty. -/
theorem publisher_unwrap_panics_on_empty_queue
    (fetched fetched2 : List ClassificationSerde) (c : ClassificationSerde)
    (rest : List ClassificationSerde) :
    call_classifier_agent_step (some true) (update_task_queue [] []) fetched
        = .panicked
    ∧ (∀ q, q ≠ [] →
        call_classifier_agent_step (some true) q fetched2 ≠ .panicked)
    ∧ call_classifier_agent_step (some true) (c :: rest) fetched
        = .sentItem c (update_task_queue rest fetched) := by
  refine ⟨rfl, ?_, rfl⟩
  intro q hq
  cases q with
  | nil => exact absurd rfl hq
  | cons c2 rest2 => simp [call_classifier_agent_step]

/-- Witness for C10 at a concrete input: a singleton queue is
dequeued without panicking. -/
theorem publisher_unwrap_panics_on_empty_queue_witness :
    call_classifier_agent_step (some true) [⟨"a", "p", none⟩] []
      ≠ PubStep.panicked :=
  (publisher_unwrap_panics_on_empty_queue [] [] ⟨"a", "p", none⟩ []).2.1
    [⟨"a", "p", none⟩] (by simp)

end STT







